import Mathlib

/-!
Verification development for the Empire Agent Session Manager
(`lib/common/agents.py`).

The Python source is shallowly embedded below: strings are `List Char`
(written `Str`), byte strings are likewise modelled as character lists or
`List Nat`, machine-independent integers are `Nat`/`Int`, databases and the
in-memory agent cache are explicit record states, and every effectful call
(event dispatch, file write, SQL statement) is reflected as a field of the
returned outcome record.  Fallible operations return `Option`.

Functions of `agents.py` keep their source names.  Helper definitions whose
doc comment begins with "Modelled from the spec:" stand for repository code
that is not part of `lib/common/agents.py` (the crypto primitives of
`lib/common/encryption.py` and the packet codec of `lib/common/packets.py`);
they follow the natural-language specification of those collaborators.
-/

namespace Empire

/-- Python strings are modelled as lists of characters. -/
abbrev Str := List Char

/-- Splitting on a single separator character, the semantics of Python's
`str.split(sep)` for a one-character separator: the result always has at
least one (possibly empty) group. -/
def splitOnChar (sep : Char) : Str → List Str
  | [] => [[]]
  | c :: cs =>
    if c = sep then [] :: splitOnChar sep cs
    else
      match splitOnChar sep cs with
      | [] => [[c]]
      | g :: gs => (c :: g) :: gs

/-- Joining a list of groups with a single separator character, the
semantics of Python's `sep.join(groups)`. -/
def joinSep (sep : Char) : List Str → Str
  | [] => []
  | [g] => g
  | g :: gs => g ++ sep :: joinSep sep gs

/-- Boolean list-prefix test (executable counterpart of `startswith`). -/
def isPrefixOfList {α : Type} [DecidableEq α] : List α → List α → Bool
  | [], _ => true
  | _ :: _, [] => false
  | a :: as, b :: bs => if a = b then isPrefixOfList as bs else false

/-- Python's `str.strip()` restricted to whitespace characters. -/
def stripSpaces (s : Str) : Str :=
  ((s.dropWhile Char.isWhitespace).reverse.dropWhile Char.isWhitespace).reverse

/-- Accumulates the value of a run of decimal digits; fails on the first
non-digit character. -/
def decDigitsAux : Nat → List Char → Option Nat
  | acc, [] => some acc
  | acc, c :: cs =>
    if c.isDigit then decDigitsAux (10 * acc + (c.toNat - 48)) cs else none

/-- Model of Python's `int(s)` on decimal text: surrounding whitespace is
stripped, one optional sign is allowed, and the remainder must be a
non-empty run of decimal digits (the underscore digit-group separator of
CPython is not modelled; no input in this development contains one). -/
def pyIntL (s : Str) : Option Int :=
  match stripSpaces s with
  | [] => none
  | '-' :: rest =>
    if rest = [] then none
    else (decDigitsAux 0 rest).map (fun n => -(Int.ofNat n))
  | '+' :: rest =>
    if rest = [] then none
    else (decDigitsAux 0 rest).map (fun n => Int.ofNat n)
  | cs => (decDigitsAux 0 cs).map (fun n => Int.ofNat n)

/-! ### Path canonicalization and the file sink (`save_file`, lines 267-333) -/

/-- One step of lexical `.`/`..` resolution: empty segments and `.` are
dropped, `..` removes the previous segment (and is ignored at the root,
as `os.path.normpath` does for absolute paths). -/
def normFold (acc : List Str) (seg : Str) : List Str :=
  if seg = [] ∨ seg = ['.'] then acc
  else if seg = ['.', '.'] then acc.dropLast
  else acc ++ [seg]

/-- Model of Python's `os.path.abspath` on an absolute POSIX path: purely
lexical resolution of `//`, `.` and `..` (symbolic links are *not*
resolved, exactly as in the source, which uses `abspath` and not
`realpath`). -/
def abspath (p : Str) : Str :=
  '/' :: joinSep '/' (((splitOnChar '/' p).foldl normFold []))

/-- Model of `os.path.basename`: the part after the last `/`. -/
def basename (p : Str) : Str := (splitOnChar '/' p).getLastD []

/-- Decides whether the canonicalized absolute path `p` lies strictly under
the `downloads/` directory of the install path — the containment property
claimed by the specification (I5). -/
def underDownloads (installPath p : Str) : Bool :=
  isPrefixOfList (abspath (installPath ++ ("downloads/").data) ++ ['/']) (abspath p)

/-- Round-half-to-even of the exact fraction `num / den` (for `den > 0`),
the rounding rule of Python 3's built-in `round` (the binary floating-point
representation error of CPython is abstracted away; every claim below is
tie-free). -/
def roundHalfEvenFrac (num den : Nat) : Nat :=
  let q := num / den
  let r := num % den
  if 2 * r < den then q
  else if den < 2 * r then q + 1
  else if q % 2 = 0 then q else q + 1

/-- The value of `round(onDisk / filesize * 100, 2)` scaled by `100`:
a result of two-decimal rounding is an exact multiple of `1/100`, so the
emitted percentage is represented as an integer count of hundredths of a
percent, which keeps every comparison decidable.  The percentage claimed by
the specification, `min(100, ...)`, is `min 10000` in this scale. -/
def pctTimes100 (onDisk filesize : Nat) : Nat :=
  roundHalfEvenFrac (onDisk * 100 * 100) filesize

/-- Everything observable about one `save_file` call: the path opened for
writing (if any), whether the skywalker warning event was dispatched, and
the percentage carried by the progress event (if one was emitted), in
hundredths of a percent. -/
structure SaveOutcome where
  written : Option Str
  warned : Bool
  percent : Option Nat
deriving DecidableEq, Repr

/-- Embedding of `Agents.save_file` (agents.py lines 267-333).  `path` is the
agent-supplied remote path; `onDiskAfter` is the value of
`os.path.getsize` after the chunk is written and `filesize` the declared
total size (both read by the progress computation on line 325).  The
`sessionID` argument is taken post name-resolution; the zlib decompression
of python-agent payloads alters only the data written, never the path, and
is therefore not repeated here.  Python raises `ZeroDivisionError` when
`filesize` is `0`; the claims below always assume `0 < filesize`. -/
def save_file (installPath sessionID path : Str) (onDiskAfter filesize : Nat) :
    SaveOutcome :=
  let parts := splitOnChar '\\' path
  let save_path :=
    installPath ++ ("downloads/").data ++ sessionID ++ '/' ::
      joinSep '/' parts.dropLast
  let filename := basename (parts.getLastD [])
  let safePath := abspath (installPath ++ ("downloads/").data)
  if ¬ (isPrefixOfList safePath (abspath (save_path ++ '/' :: filename)) = true) then
    { written := none, warned := true, percent := none }
  else
    { written := some (save_path ++ '/' :: filename)
      warned := false
      percent := some (pctTimes100 onDiskAfter filesize) }

/-! ### Staging state machine (`handle_agent_staging`, lines 1142-1432) -/

/-- Modelled from the spec: `encryption.aes_encrypt_then_hmac` of
`lib/common/encryption.py` (not under `src/`) — AES-CBC with a random IV
prepended and an HMAC-SHA256 appended.  The claims below only compare
sealed messages for the equality `reply = aes_encrypt_then_hmac(key, pt)`,
so the sealing is kept as an opaque injective constructor of key and
plaintext. -/
inductive EncMsg where
  | seal (key : Str) (pt : Str)
deriving DecidableEq, Repr

/-- Modelled from the spec: the sealing operation itself (§4.1). -/
def aes_encrypt_then_hmac (key pt : Str) : EncMsg := .seal key pt

/-- Modelled from the spec: the server half of `encryption.DiffieHellman`
(§4.1) — a fixed MODP group with generator `g = 2`.  The group prime and
the server's ephemeral private exponent are passed explicitly (the prime's
exact 2048-bit constant lives in `lib/common/encryption.py`, which is not
under `src/`; no claim depends on its value). -/
def dhPublicKey (p priv : Nat) : Int := (2 : Int) ^ priv % (p : Int)

/-- Modelled from the spec: the shared secret is the big-endian integer
`clientPub ^ priv mod p` truncated/hashed to 32 bytes for AES (§4.1); the
truncation to 32 bytes is modelled as reduction modulo `2 ^ 256`. -/
def dhSharedKey (p priv : Nat) (clientPub : Int) : Int :=
  (clientPub ^ priv % (p : Int)) % (2 : Int) ^ 256

/-- Python's `str(n)` for an integer, as a character list. -/
def intToStr (n : Int) : Str := (toString n).data

/-- Result of the `STAGE1` / `python` branch: either an error reply with no
agent row created, or a created agent row carrying the negotiated session
key together with the sealed reply sent back to the client. -/
inductive Stage1PyOutcome where
  | err (reply : Str)
  | agentAdded (sessionKey : Int) (nonce : Str) (reply : EncMsg)
deriving DecidableEq, Repr

/-- Embedding of the `language == 'python'` branch of `STAGE1` in
`Agents.handle_agent_staging` (agents.py lines 1236-1291).  `msg` is the
plaintext obtained from `aes_decrypt_and_verify(stagingKey, encData)`;
`nonce` is the freshly minted 16-digit nonce (randomness is passed in);
`p`/`priv` are the Diffie-Hellman group prime and the server's ephemeral
private exponent. -/
def handle_agent_staging_stage1_python (p priv : Nat)
    (sessionID nonce stagingKey : Str) (msg : Str) : Stage1PyOutcome :=
  if msg.length < 1000 ∨ 2500 < msg.length then
    .err (("Error: Invalid Python key post format from ").data ++ sessionID)
  else
    match pyIntL msg with
    | none => .err (("Error: Invalid Python key post format from ").data ++ sessionID)
    | some clientPub =>
      .agentAdded (dhSharedKey p priv clientPub) nonce
        (aes_encrypt_then_hmac stagingKey (nonce ++ intToStr (dhPublicKey p priv)))

/-- The sysinfo fields persisted by `update_agent_sysinfo_db` on a
successful `STAGE2`. -/
structure SysInfo where
  listener : Str
  internal_ip : Str
  username : Str
  hostname : Str
  os_details : Str
  high_integrity : Nat
  process_name : Str
  process_id : Str
  language : Str
  language_version : Str
deriving DecidableEq, Repr

/-- Result of the `STAGE2` branch.  The three `removed*` constructors all
correspond to a `remove_agent_db(sessionID)` call (the agent row is dropped
from the in-memory cache and from the database) followed by returning the
carried reply string; `activated` corresponds to persisting the sysinfo via
`update_agent_sysinfo_db` and returning the reply. -/
inductive Stage2Outcome where
  | removedMalformed (reply : Str)
  | removedBadNonce (reply : Str)
  | removedError (reply : Str)
  | activated (info : SysInfo) (reply : Str)
deriving DecidableEq, Repr

/-- True exactly on the outcomes that remove the agent row. -/
def stage2Removes : Stage2Outcome → Bool
  | .activated _ _ => false
  | _ => true

/-- True exactly on the `MalformedSysinfo` outcome (field-count rejection). -/
def stage2IsMalformed : Stage2Outcome → Bool
  | .removedMalformed _ => true
  | _ => false

/-- The string returned to the listener. -/
def stage2Reply : Stage2Outcome → Str
  | .removedMalformed r => r
  | .removedBadNonce r => r
  | .removedError r => r
  | .activated _ r => r

/-- Embedding of the `meta == 'STAGE2'` branch of
`Agents.handle_agent_staging` (agents.py lines 1302-1424).  `pt` is the
plaintext decrypted under the agent's session key, `nonceStr` the nonce
stored for the agent at `STAGE1`, `listenerName` the name of the carrying
listener.  Faithful details: the field-count guard is `len(parts) < 12`
(line 1313); the nonce comparison is `int(parts[0]) != int(nonce) + 1`
(line 1325), and a failing `int()` lands in the `except` branch, which also
removes the agent (lines 1360-1369); `update_agent_sysinfo_db` is called
with `listener=listenerName`, not with `parts[1]` (line 1375);
`username` becomes `domain \\ user` only when the domain is non-empty after
stripping (lines 1371-1372); `high_integrity` is `1` iff the field is the
exact string `"True"` (lines 1355-1358). -/
def handle_agent_staging_stage2 (sessionID listenerName nonceStr : Str)
    (pt : Str) : Stage2Outcome :=
  let parts := splitOnChar '|' pt
  if parts.length < 12 then
    .removedMalformed
      (("ERROR: Agent ").data ++ sessionID ++
        (" posted invalid sysinfo checkin format: ").data ++ pt)
  else
    match pyIntL (parts.headD []) with
    | none =>
      .removedError
        (("Error: Exception in agents.handle_agent_staging() for ").data ++ sessionID)
    | some m =>
      match pyIntL nonceStr with
      | none =>
        .removedError
          (("Error: Exception in agents.handle_agent_staging() for ").data ++ sessionID)
      | some n =>
        if m ≠ n + 1 then
          .removedBadNonce (("ERROR: Invalid nonce returned from ").data ++ sessionID)
        else
          let domainname := parts.getD 2 []
          let user := parts.getD 3 []
          let username :=
            if domainname ≠ [] ∧ stripSpaces domainname ≠ [] then
              domainname ++ '\\' :: user
            else user
          .activated
            { listener := listenerName
              internal_ip := parts.getD 5 []
              username := username
              hostname := parts.getD 4 []
              os_details := parts.getD 6 []
              high_integrity := if parts.getD 7 [] = ("True").data then 1 else 0
              process_name := parts.getD 8 []
              process_id := parts.getD 9 []
              language := parts.getD 10 []
              language_version := parts.getD 11 [] }
            (("STAGE2: ").data ++ sessionID)

/-! ### Task-id assignment (`add_agent_task_db`, lines 1011-1024) -/

/-- The value SQLite's `SELECT max(id) FROM taskings WHERE agent=?` yields
under the `if pk is None: pk = 0` correction of line 1012: the maximum of
the agent's existing task-row ids, `0` when no row exists. -/
def maxId (rows : List Nat) : Nat := rows.foldr max 0

/-- Embedding of the id minted by `Agents.add_agent_task_db`
(agents.py line 1014): `pk = (pk + 1) % 65536`. -/
def next_task_id (rows : List Nat) : Nat := (maxId rows + 1) % 65536

/-- The agent's `taskings`-table rows after `k` enqueues starting from an
empty table.  Draining (`get_agent_tasks_db`) clears only the JSON
`agents.taskings` buffer and never deletes `taskings`-table rows, so the
rows of this table only accumulate between enqueues. -/
def taskRowsAfter : Nat → List Nat
  | 0 => []
  | k + 1 => next_task_id (taskRowsAfter k) :: taskRowsAfter k

/-- The id assigned to the `k`-th enqueue (1-indexed) of the scenario
"enqueue repeatedly to one agent, draining between each". -/
def nthTaskId (k : Nat) : Nat := next_task_id (taskRowsAfter (k - 1))

/-! ### Draining the task buffer (`get_agent_tasks_db`, lines 1056-1082) -/

/-- One pending task as stored in the agent's `taskings` JSON buffer:
`(task_name, task_body, task_id)`. -/
abbrev PyTask := Str × Str × Nat

/-- State relevant to `get_agent_tasks_db`: the in-memory agent cache keys,
the `taskings` attribute of the SQLAlchemy ORM `Agent` object (the
session-local value), and the value actually committed in the database.
The JSON serialization of the buffer is abstracted: an empty list stands
for the falsy `''` / `None` column value. -/
structure TaskStoreState where
  cache : List Str
  ormTaskings : List PyTask
  dbTaskings : List PyTask
deriving DecidableEq, Repr

/-- Embedding of `Agents.get_agent_tasks_db` (agents.py lines 1056-1082) as
written: the ORM object's `taskings` attribute is cleared, but line 1078
reads `Session().commit` — the bound method is never *called* (compare
line 578, which correctly calls `Session().commit()`), so the committed
database value is left untouched by this call. -/
def get_agent_tasks_db (sessionID : Str) (s : TaskStoreState) :
    List PyTask × TaskStoreState :=
  if ¬ s.cache.contains sessionID then ([], s)
  else if s.ormTaskings ≠ [] then
    (s.ormTaskings, { s with ormTaskings := [] })
  else ([], s)

/-- Modelled from the spec: what line 1078 was meant to do — the variant of
`get_agent_tasks_db` in which `Session().commit()` is actually invoked, so
the cleared buffer is also persisted ("drain(session_id): atomically
returns and clears the agent's pending tasks", §4.5). -/
def get_agent_tasks_db_spec (sessionID : Str) (s : TaskStoreState) :
    List PyTask × TaskStoreState :=
  if ¬ s.cache.contains sessionID then ([], s)
  else if s.ormTaskings ≠ [] then
    (s.ormTaskings, { s with ormTaskings := [], dbTaskings := [] })
  else ([], s)

/-! ### Result-post handling (`handle_agent_response`, lines 1551-1612) -/

/-- Runs the dispatcher over the parsed result packets in order, exactly as
the `for` loop of lines 1583-1586 does: each packet's side effect is
applied before the next packet is examined, and a dispatch failure
(an exception out of `process_agent_packet`) aborts the loop.  Returns the
packets whose side effects were applied and whether the loop completed. -/
def processPackets (dispatchOk : Nat → Bool) : List Nat → List Nat × Bool
  | [] => ([], true)
  | p :: ps =>
    if dispatchOk p then
      let r := processPackets dispatchOk ps
      (p :: r.1, r.2)
    else ([], false)

/-- Everything observable about one `handle_agent_response` call: the value
returned to `handle_agent_data`, the packets whose side effects were
applied, and whether a warning event was dispatched. -/
structure RespOutcome where
  reply : Option Str
  applied : List Nat
  warned : Bool
deriving DecidableEq, Repr

/-- Embedding of `Agents.handle_agent_response` (agents.py lines
1551-1612).  Packets are abstracted to `Nat` tokens.  `pkts` is the joint
outcome of `aes_decrypt_and_verify` and `packets.parse_result_packets`
(modelled from the spec, §4.2/§4.7, as an all-or-nothing parse of the
decrypted body — `packets.py` is not under `src/`): `none` when decryption
or parsing raises, `some ps` when the body parses into the packet list
`ps`.  `dispatchOk p` tells whether `process_agent_packet` completes
without raising on packet `p`. -/
def handle_agent_response (inCache : Bool) (pkts : Option (List Nat))
    (dispatchOk : Nat → Bool) : RespOutcome :=
  if ¬ inCache then { reply := none, applied := [], warned := true }
  else
    match pkts with
    | none => { reply := none, applied := [], warned := true }
    | some ps =>
      let r := processPackets dispatchOk ps
      if r.2 then { reply := some ("VALID").data, applied := r.1, warned := false }
      else { reply := none, applied := r.1, warned := true }

/-! ### Transport entry point (`handle_agent_data`, lines 1434-1503) -/

/-- Everything observable about one `handle_agent_data` call: the value
returned to the listener (`none` models Python's `None`), the agent-store
state after the call, and the messages of the events dispatched by the
length guard. -/
structure HandleDataOutcome (σ : Type) where
  replies : Option (List (Str × Str))
  state : σ
  events : List Str
deriving Repr

/-- Sequential processing of the parsed routing frames, as in the `for`
loop of lines 1458-1502, threading the agent-store state. -/
def processFrames {φ σ : Type} (handleFrame : φ → σ → (Str × Str) × σ) :
    List φ → σ → List (Str × Str) × σ
  | [], s => ([], s)
  | f :: fs, s =>
    let r := handleFrame f s
    let rest := processFrames handleFrame fs r.2
    (r.1 :: rest.1, rest.2)

/-- Embedding of `Agents.handle_agent_data` (agents.py lines 1434-1503)
over an abstract frame type `φ` and agent-store state `σ`.
`parseRouting` models `packets.parse_routing_packet` (modelled from the
spec, §4.2 — `packets.py` is not under `src/`): `none` for a body whose
frames fail authentication, `some frames` otherwise.  `handleFrame` models
the per-frame dispatch to staging / tasking / response handling.  The
guard of lines 1441-1448 comes first: a body shorter than 20 bytes is
rejected with a log event and the Python `None` before any parsing or
frame processing. -/
def handle_agent_data {φ σ : Type} (body : List Nat) (st : σ)
    (parseRouting : List Nat → Option (List φ))
    (handleFrame : φ → σ → (Str × Str) × σ) : HandleDataOutcome σ :=
  if body.length < 20 then
    { replies := none
      state := st
      events := [("[!] handle_agent_data(): routingPacket wrong length: ").data ++
        (toString body.length).data] }
  else
    match parseRouting body with
    | none =>
      { replies := some [([], ("ERROR: invalid routing packet").data)]
        state := st
        events := [] }
    | some frames =>
      let r := processFrames handleFrame frames st
      { replies := some r.1, state := r.2, events := [] }

/-! ### Agent removal (`remove_agent_db`, lines 207-240) -/

/-- ASCII lower-casing, the case folding SQLite applies to `LIKE`. -/
def asciiLower (c : Char) : Char :=
  if 'A' ≤ c ∧ c ≤ 'Z' then Char.ofNat (c.toNat + 32) else c

/-- Lower-cases a whole string, the model of Python's `str.lower()` on the
ASCII identifiers used for session ids. -/
def toLowerStr (s : Str) : Str := s.map asciiLower

/-- All suffixes of a list, longest first (helper for `likeMatch`). -/
def suffixes : Str → List Str
  | [] => [[]]
  | c :: s => (c :: s) :: suffixes s

/-- SQLite `LIKE` pattern matching, the semantics of the
`DELETE FROM agents WHERE session_id LIKE ?` statement on line 230:
`%` matches any sequence, `_` matches any single character, and every
other character matches case-insensitively (ASCII folding). -/
def likeMatch : Str → Str → Bool
  | [], s => s.isEmpty
  | c :: ps, s =>
    if c = '%' then (suffixes s).any (fun t => likeMatch ps t)
    else if c = '_' then
      match s with
      | [] => false
      | _ :: s' => likeMatch ps s'
    else
      match s with
      | [] => false
      | d :: s' => if asciiLower c = asciiLower d then likeMatch ps s' else false

/-- State relevant to `remove_agent_db`: the keys of the in-memory
`self.agents` cache and the persisted `agents` rows as
`(session_id, name)` pairs. -/
structure AgentStoreState where
  cache : List Str
  rows : List (Str × Str)
deriving DecidableEq, Repr

/-- Embedding of `Agents.get_agent_id_db` (agents.py lines 588-598): the
`session_id` of the first row whose *name* equals the argument (SQLite `=`
on text is case-sensitive), else Python `None`. -/
def get_agent_id_db (name : Str) (rows : List (Str × Str)) : Option Str :=
  (rows.find? (fun r => r.2 = name)).map (fun r => r.1)

/-- Embedding of `Agents.remove_agent_db` (agents.py lines 207-240).
`'%'` and the case-insensitive `'all'` clear the whole cache and run the
`DELETE` with the pattern `%`; otherwise the argument is first resolved
name → session id, the exact key is popped from the cache, and the
`DELETE ... LIKE` statement removes every row whose `session_id`
LIKE-matches it. -/
def remove_agent_db (sessionID : Str) (s : AgentStoreState) : AgentStoreState :=
  if sessionID = ('%' :: []) ∨ toLowerStr sessionID = ("all").data then
    { cache := []
      rows := s.rows.filter (fun r => ¬ likeMatch ('%' :: []) r.1) }
  else
    let sid := (get_agent_id_db sessionID s.rows).getD sessionID
    { cache := s.cache.filter (fun x => x ≠ sid)
      rows := s.rows.filter (fun r => ¬ likeMatch sid r.1) }

/-- Boolean set-equality of the in-memory session-id set and a row-id set
(invariant I1 of the specification). -/
def sameMembers (a b : List Str) : Bool :=
  a.all (fun x => b.contains x) && b.all (fun x => a.contains x)

/-! ## Helper lemmas -/

/-- A Boolean prefix of `ys` is a prefix of `ys ++ zs`. -/
theorem isPrefixOfList_append_of {α : Type} [DecidableEq α] :
    ∀ xs ys zs : List α, isPrefixOfList xs ys = true →
      isPrefixOfList xs (ys ++ zs) = true := by
  intro xs
  induction xs with
  | nil => intro ys zs _; rfl
  | cons a as ih =>
    intro ys zs h
    cases ys with
    | nil => simp [isPrefixOfList] at h
    | cons b bs =>
      rw [List.cons_append]
      simp only [isPrefixOfList] at h ⊢
      by_cases hab : a = b
      · rw [if_pos hab] at h ⊢
        exact ih bs zs h
      · rw [if_neg hab] at h
        exact absurd h (by simp)

/-- Bound on the rounded percentage: a chunk total not exceeding the
declared size rounds to at most 100.00 percent. -/
theorem pctTimes100_le_of_le (onDisk fs : Nat) (hfs : 0 < fs)
    (hle : onDisk ≤ fs) : pctTimes100 onDisk fs ≤ 10000 := by
  unfold pctTimes100 roundHalfEvenFrac
  have h1 : onDisk * 100 * 100 ≤ fs * 10000 := by
    have := Nat.mul_le_mul_right 10000 hle
    omega
  have h2 : fs * (onDisk * 100 * 100 / fs) + onDisk * 100 * 100 % fs =
      onDisk * 100 * 100 := Nat.div_add_mod _ _
  have h3 : onDisk * 100 * 100 / fs ≤ 10000 := by
    calc onDisk * 100 * 100 / fs ≤ fs * 10000 / fs := Nat.div_le_div_right h1
    _ = 10000 := Nat.mul_div_cancel_left _ hfs
  by_cases hcase : 2 * (onDisk * 100 * 100 % fs) < fs
  · simpa [hcase] using h3
  · have hq : onDisk * 100 * 100 / fs < 10000 := by
      rcases Nat.lt_or_ge (onDisk * 100 * 100 / fs) 10000 with h | h
      · exact h
      · have heq : onDisk * 100 * 100 / fs = 10000 := le_antisymm h3 h
        rw [heq] at h2
        omega
    rw [if_neg hcase]
    split
    · omega
    · split <;> omega

/-- C1 (counterexample): with install path `/opt/Empire/`, agent `A` and the
agent-supplied remote path `..\..\downloadsX\f`, the skywalker guard of
`save_file` passes — the file is written and no warning event is emitted —
yet the canonicalized destination `/opt/Empire/downloadsX/f` is not under
the `downloads/` directory: line 286 compares raw string prefixes with
`startswith`, so any sibling directory whose name extends `downloads`
is accepted. -/
theorem save_file_escape_ctrex :
    (save_file ("/opt/Empire/").data ("A").data ("..\\..\\downloadsX\\f").data
        1 1).written = some (("/opt/Empire/downloads/A/../../downloadsX/f").data)
  ∧ (save_file ("/opt/Empire/").data ("A").data ("..\\..\\downloadsX\\f").data
        1 1).warned = false
  ∧ underDownloads ("/opt/Empire/").data
      (("/opt/Empire/downloads/A/../../downloadsX/f").data) = false :=
  ⟨by decide, by decide, by decide⟩

/-- C1 (amended): `save_file` writes only to locations whose lexically
canonicalized absolute path has the *string* `abspath(install +
"downloads/")` as a plain string prefix (not necessarily as a directory
prefix, and with symlinks unresolved); whenever that prefix check fails,
no file is written and the skywalker warning event is dispatched. -/
theorem save_file_guard_exactly_string_prefixes
    (installPath sessionID path : Str) (onDisk fs : Nat) :
    (∀ w, (save_file installPath sessionID path onDisk fs).written = some w →
        isPrefixOfList (abspath (installPath ++ ("downloads/").data))
          (abspath w) = true)
  ∧ ((save_file installPath sessionID path onDisk fs).written = none →
      (save_file installPath sessionID path onDisk fs).warned = true) := by
  refine ⟨fun w hw => ?_, fun hw => ?_⟩
  · simp only [save_file] at hw
    split at hw
    · exact absurd hw (by simp)
    · next h =>
      rw [not_not] at h
      obtain rfl : _ = w := Option.some.inj hw
      exact h
  · simp only [save_file] at hw ⊢
    split at hw
    · next h => simp only [if_pos h]
    · exact absurd hw (by simp)

/-- Witness for the C1 amended theorem: for the benign path `f` the file is
written and its canonicalized location indeed extends the canonicalized
downloads prefix. -/
theorem save_file_guard_exactly_string_prefixes_witness :
    isPrefixOfList (abspath (("/opt/Empire/").data ++ ("downloads/").data))
      (abspath (("/opt/Empire/downloads/A//f").data)) = true :=
  (save_file_guard_exactly_string_prefixes ("/opt/Empire/").data ("A").data
    ("f").data 1 1).1 (("/opt/Empire/downloads/A//f").data) (by decide)

/-- C9 (counterexample): a chunk bringing the file to 300 bytes on disk
against a declared total of 200 makes `save_file` report 150.00 percent
(15000 hundredths): line 325 computes `round(size/total*100, 2)` with no
`min(100, ...)` clamp, so the emitted value exceeds 100, contradicting the
claimed formula, which would give 100. -/
theorem save_file_percent_ctrex :
    (save_file ("/opt/Empire/").data ("A").data ("f").data 300 200).percent =
        some 15000
  ∧ min 10000 15000 ≠ 15000 :=
  ⟨by decide, by decide⟩

/-- C9 (amended): whenever `save_file` emits a progress event for a chunk
with declared total size `fs > 0`, the reported percentage is the unclamped
`round(on_disk/fs*100, 2)` (here scaled by 100); it is bounded by 100 only
when the bytes on disk do not exceed the declared size. -/
theorem save_file_percent_unclamped (installPath sessionID path : Str)
    (onDisk fs : Nat) (hfs : 0 < fs) :
    ∀ pc, (save_file installPath sessionID path onDisk fs).percent = some pc →
      pc = pctTimes100 onDisk fs ∧ (onDisk ≤ fs → pc ≤ 10000) := by
  intro pc hpc
  simp only [save_file] at hpc
  split at hpc
  · exact absurd hpc (by simp)
  · obtain rfl : _ = pc := Option.some.inj hpc
    exact ⟨rfl, fun hle => pctTimes100_le_of_le onDisk fs hfs hle⟩

/-- Witness for the C9 amended theorem: a half-way chunk (100 of 200 bytes)
reports exactly 50.00 percent, within the bound. -/
theorem save_file_percent_unclamped_witness :
    (5000 : Nat) = pctTimes100 100 200 ∧ (100 ≤ 200 → (5000 : Nat) ≤ 10000) :=
  save_file_percent_unclamped ("/opt/Empire/").data ("A").data ("f").data
    100 200 (by decide) 5000 (by decide)

/-- C2: for a staged agent with stored nonce `n`, a `STAGE2` plaintext whose
first pipe-delimited field parses to an integer different from `n + 1` makes
the handler remove the agent row (from cache and database) and return a
string starting with `ERROR` — either the field-count rejection or the
nonce rejection, both of which remove the row; a plaintext whose first
field equals `n + 1` and which has 12 fields activates the agent, persists
its sysinfo, and returns `"STAGE2: " ++ session_id`. -/
theorem stage2_nonce_verification (sessionID listenerName nonceStr pt : Str)
    (n m : Int) (hn : pyIntL nonceStr = some n)
    (hm : pyIntL ((splitOnChar '|' pt).headD []) = some m) :
    (m ≠ n + 1 →
        stage2Removes
          (handle_agent_staging_stage2 sessionID listenerName nonceStr pt) = true
      ∧ isPrefixOfList (("ERROR").data)
          (stage2Reply
            (handle_agent_staging_stage2 sessionID listenerName nonceStr pt)) = true)
  ∧ (m = n + 1 → (splitOnChar '|' pt).length = 12 →
      ∃ info, handle_agent_staging_stage2 sessionID listenerName nonceStr pt =
        .activated info ((("STAGE2: ").data ++ sessionID))) := by
  by_cases hlen : (splitOnChar '|' pt).length < 12
  · constructor
    · intro _
      simp only [handle_agent_staging_stage2, if_pos hlen]
      refine ⟨rfl, ?_⟩
      simp only [stage2Reply]
      exact isPrefixOfList_append_of (("ERROR").data) (("ERROR: Agent ").data)
        (sessionID ++ ((" posted invalid sysinfo checkin format: ").data) ++ pt)
        (by decide)
    · intro _ h12
      omega
  · simp only [handle_agent_staging_stage2, if_neg hlen, hm, hn]
    constructor
    · intro hne
      rw [if_pos hne]
      refine ⟨rfl, ?_⟩
      simp only [stage2Reply]
      exact isPrefixOfList_append_of (("ERROR").data)
        (("ERROR: Invalid nonce returned from ").data) sessionID (by decide)
    · intro heq _
      rw [if_neg (by simp [heq])]
      exact ⟨_, rfl⟩

/-- Witness for the C2 theorem: stored nonce `41`, returned first field
`42 = 41 + 1`, 12 well-formed fields — the agent is activated and the
reply is `STAGE2: S`. -/
theorem stage2_nonce_verification_witness :
    ∃ info, handle_agent_staging_stage2 ("S").data ("L").data ("41").data
        (("42|l|d|u|h|i|o|True|p|9|python|3").data) =
      .activated info ((("STAGE2: ").data ++ ("S").data)) :=
  (stage2_nonce_verification ("S").data ("L").data ("41").data
      (("42|l|d|u|h|i|o|True|p|9|python|3").data) 41 42 (by decide)
      (by decide)).2 (by decide) (by decide)

/-- C3 (counterexample): a `STAGE2` plaintext with 13 pipe-delimited fields
(and a correct nonce) is *not* rejected: line 1313 checks
`len(parts) < 12`, not `!= 12`, so the handler activates the agent instead
of signalling `MalformedSysinfo`. -/
theorem stage2_thirteen_fields_ctrex :
    stage2Removes (handle_agent_staging_stage2 ("S").data ("L").data ("41").data
      (("42|l|d|u|h|i|o|True|p|9|python|3|extra").data)) = false := by decide

/-- C3 (amended): a `STAGE2` plaintext splitting into *fewer than* 12 fields
is rejected as malformed — the agent row is removed and an error string
starting with `ERROR` is returned; a plaintext with 12 or more fields is
never rejected as malformed (extra fields beyond the twelfth are silently
ignored). -/
theorem stage2_field_count_guard (sessionID listenerName nonceStr pt : Str) :
    ((splitOnChar '|' pt).length < 12 →
        stage2IsMalformed
          (handle_agent_staging_stage2 sessionID listenerName nonceStr pt) = true
      ∧ stage2Removes
          (handle_agent_staging_stage2 sessionID listenerName nonceStr pt) = true
      ∧ isPrefixOfList (("ERROR").data)
          (stage2Reply
            (handle_agent_staging_stage2 sessionID listenerName nonceStr pt)) = true)
  ∧ (12 ≤ (splitOnChar '|' pt).length →
      stage2IsMalformed
        (handle_agent_staging_stage2 sessionID listenerName nonceStr pt) = false) := by
  constructor
  · intro hlen
    simp only [handle_agent_staging_stage2, if_pos hlen]
    refine ⟨rfl, rfl, ?_⟩
    simp only [stage2Reply]
    exact isPrefixOfList_append_of (("ERROR").data) (("ERROR: Agent ").data)
      (sessionID ++ ((" posted invalid sysinfo checkin format: ").data) ++ pt)
      (by decide)
  · intro hlen
    have hlen' : ¬ (splitOnChar '|' pt).length < 12 := by omega
    simp only [handle_agent_staging_stage2, if_neg hlen']
    cases hfst : pyIntL ((splitOnChar '|' pt).headD []) with
    | none => rfl
    | some m =>
      cases hnn : pyIntL nonceStr with
      | none => rfl
      | some n =>
        dsimp only
        split <;> rfl

/-- Witness for the C3 amended theorem: a two-field plaintext is rejected
as malformed with an `ERROR` reply and the agent row removed. -/
theorem stage2_field_count_guard_witness :
    stage2IsMalformed (handle_agent_staging_stage2 ("S").data ("L").data
        ("41").data (("a|b").data)) = true
  ∧ stage2Removes (handle_agent_staging_stage2 ("S").data ("L").data
        ("41").data (("a|b").data)) = true
  ∧ isPrefixOfList (("ERROR").data)
      (stage2Reply (handle_agent_staging_stage2 ("S").data ("L").data
        ("41").data (("a|b").data))) = true :=
  (stage2_field_count_guard ("S").data ("L").data ("41").data
    (("a|b").data)).1 (by decide)

/-- The maximum task-row id after `k` enqueues is `k` capped at `65535`:
ids grow `1, 2, ...` until the modulus wraps the next id to `0`, and the
old rows keep the maximum at `65535` from then on. -/
theorem maxId_taskRowsAfter : ∀ k, maxId (taskRowsAfter k) = min k 65535 := by
  intro k
  induction k with
  | zero => rfl
  | succ k ih =>
    have hcons : maxId (taskRowsAfter (k + 1)) =
        max (next_task_id (taskRowsAfter k)) (maxId (taskRowsAfter k)) := rfl
    rw [hcons, next_task_id, ih]
    rcases le_or_lt 65535 k with h | h
    · rw [Nat.min_eq_right h, Nat.min_eq_right (by omega)]
      norm_num
    · rw [Nat.min_eq_left (by omega), Nat.min_eq_left (by omega),
        Nat.mod_eq_of_lt (by omega)]
      omega

/-- C4 (counterexample): enqueuing 65537 tasks to one agent (draining
between each — draining clears only the JSON buffer and deletes no task
rows) assigns the 65537th task the id `0`, not `1`: after the wrap the
`taskings` table still holds a row with id `65535`, so
`(max + 1) % 65536` yields `0` again. -/
theorem task_id_65537_ctrex : nthTaskId 65537 = 0 ∧ (0 : Nat) ≠ 1 := by
  constructor
  · show next_task_id (taskRowsAfter 65536) = 0
    rw [next_task_id, maxId_taskRowsAfter]
    norm_num
  · decide

/-- C4 (amended): `add_agent_task_db` assigns the new task id as
`(max of existing task-row ids + 1) mod 65536` (`1` when no rows exist);
enqueuing repeatedly to one agent with drains in between yields ids
`1, 2, ..., 65535` and then `0` for *every* subsequent enqueue, because
drains never delete task rows and the stored maximum stays `65535`. -/
theorem task_id_assignment (rows : List Nat) (k : Nat) (h1 : 1 ≤ k) :
    next_task_id rows = (maxId rows + 1) % 65536
  ∧ next_task_id [] = 1
  ∧ (k ≤ 65535 → nthTaskId k = k)
  ∧ (65536 ≤ k → nthTaskId k = 0) := by
  refine ⟨rfl, rfl, ?_, ?_⟩
  · intro h2
    unfold nthTaskId
    rw [next_task_id, maxId_taskRowsAfter, Nat.min_eq_left (by omega)]
    have hk : k - 1 + 1 = k := by omega
    rw [hk]
    exact Nat.mod_eq_of_lt (by omega)
  · intro h2
    unfold nthTaskId
    rw [next_task_id, maxId_taskRowsAfter, Nat.min_eq_right (by omega)]

/-- Witness for the C4 amended theorem: the fifth enqueue gets id `5`. -/
theorem task_id_assignment_witness : nthTaskId 5 = 5 :=
  (task_id_assignment [] 5 (by decide)).2.2.1 (by decide)

/-- C5 (code bug, evaluated at the failing input): draining an agent whose
buffer holds one pending task returns that task and clears the ORM
attribute — so an immediately following drain returns nothing — but the
*committed* database row still carries the task, because line 1078 reads
`Session().commit` without calling it; the spec-intended variant
(`get_agent_tasks_db_spec`, with the commit actually invoked) leaves the
committed state empty.  A process restart therefore resurrects every
drained-but-uncommitted task, contradicting the claim. -/
theorem drain_leaves_db_unchanged :
    (get_agent_tasks_db (("S").data)
        { cache := [("S").data]
          ormTaskings := [((("TASK_SHELL").data), (("whoami").data), 1)]
          dbTaskings := [((("TASK_SHELL").data), (("whoami").data), 1)] }).1 =
      [((("TASK_SHELL").data), (("whoami").data), 1)]
  ∧ (get_agent_tasks_db (("S").data)
        { cache := [("S").data]
          ormTaskings := [((("TASK_SHELL").data), (("whoami").data), 1)]
          dbTaskings := [((("TASK_SHELL").data), (("whoami").data), 1)] }).2 =
      { cache := [("S").data]
        ormTaskings := []
        dbTaskings := [((("TASK_SHELL").data), (("whoami").data), 1)] }
  ∧ (get_agent_tasks_db (("S").data)
        { cache := [("S").data]
          ormTaskings := []
          dbTaskings := [((("TASK_SHELL").data), (("whoami").data), 1)] }).1 = []
  ∧ (get_agent_tasks_db_spec (("S").data)
        { cache := [("S").data]
          ormTaskings := [((("TASK_SHELL").data), (("whoami").data), 1)]
          dbTaskings := [((("TASK_SHELL").data), (("whoami").data), 1)] }).2.dbTaskings =
      [] :=
  ⟨by decide, by decide, by decide, by decide⟩

/-- Every packet whose side effect was applied passed its dispatch. -/
theorem processPackets_applied_all (ok : Nat → Bool) :
    ∀ ps : List Nat, (processPackets ok ps).1.all ok = true := by
  intro ps
  induction ps with
  | nil => rfl
  | cons p ps ih =>
    simp only [processPackets]
    by_cases hp : ok p = true
    · simpa [hp] using ih
    · simp [Bool.eq_false_iff.mpr hp]

/-- The applied packets form a prefix of the parsed packet list. -/
theorem processPackets_applied_pre (ok : Nat → Bool) :
    ∀ ps : List Nat, isPrefixOfList (processPackets ok ps).1 ps = true := by
  intro ps
  induction ps with
  | nil => rfl
  | cons p ps ih =>
    simp only [processPackets]
    by_cases hp : ok p = true
    · simpa [hp, isPrefixOfList] using ih
    · simp [Bool.eq_false_iff.mpr hp, isPrefixOfList]

/-- The loop completes exactly when every packet dispatches cleanly, and in
that case every packet's side effect is applied. -/
theorem processPackets_all_ok (ok : Nat → Bool) :
    ∀ ps : List Nat, ps.all ok = true → processPackets ok ps = (ps, true) := by
  intro ps
  induction ps with
  | nil => intro _; rfl
  | cons p ps ih =>
    intro h
    rw [List.all_cons, Bool.and_eq_true] at h
    simp only [processPackets, h.1, if_true, ih h.2]

/-- A failing packet makes the completion flag false. -/
theorem processPackets_not_all_ok (ok : Nat → Bool) :
    ∀ ps : List Nat, ps.all ok = false → (processPackets ok ps).2 = false := by
  intro ps
  induction ps with
  | nil => intro h; simp at h
  | cons p ps ih =>
    intro h
    rw [List.all_cons, Bool.and_eq_false_iff] at h
    simp only [processPackets]
    rcases h with h | h
    · simp [h]
    · by_cases hp : ok p = true
      · simp [hp, ih h]
      · simp [Bool.eq_false_iff.mpr hp]

/-- C6 (counterexample): a decrypted body parsing into two result packets,
of which the first dispatches cleanly and the second raises, is *partially*
applied: the handler returns `None` and warns, but the first packet's side
effects have already run (the `for` loop of lines 1583-1586 dispatches each
packet before the next is examined), so a failed batch is not discarded
as a whole. -/
theorem result_post_partial_ctrex :
    (handle_agent_response true (some [1, 2]) (fun p => p == 1)).reply = none
  ∧ (handle_agent_response true (some [1, 2]) (fun p => p == 1)).warned = true
  ∧ (handle_agent_response true (some [1, 2]) (fun p => p == 1)).applied = [1]
  ∧ ([1] : List Nat) ≠ [] :=
  ⟨by decide, by decide, by decide, by decide⟩

/-- C6 (amended): on a decryption/parse failure (or an unknown session)
`handle_agent_response` warns, returns `None`, and applies nothing; on a
dispatch failure it warns, returns `None`, and the side effects applied are
exactly those of the longest prefix of packets that dispatched cleanly —
the packets before the failing one remain applied; only a fully clean batch
returns `VALID` with every packet applied. -/
theorem result_post_prefix_applied (ps : List Nat) (ok : Nat → Bool) :
    handle_agent_response false (some ps) ok =
      { reply := none, applied := [], warned := true }
  ∧ handle_agent_response true none ok =
      { reply := none, applied := [], warned := true }
  ∧ isPrefixOfList (handle_agent_response true (some ps) ok).applied ps = true
  ∧ (handle_agent_response true (some ps) ok).applied.all ok = true
  ∧ (ps.all ok = true →
      handle_agent_response true (some ps) ok =
        { reply := some (("VALID").data), applied := ps, warned := false })
  ∧ (ps.all ok = false →
      (handle_agent_response true (some ps) ok).reply = none
    ∧ (handle_agent_response true (some ps) ok).warned = true) := by
  have hsome : handle_agent_response true (some ps) ok =
      if (processPackets ok ps).2 = true then
        { reply := some (("VALID").data), applied := (processPackets ok ps).1
          warned := false }
      else
        { reply := none, applied := (processPackets ok ps).1, warned := true } := rfl
  refine ⟨rfl, rfl, ?_, ?_, ?_, ?_⟩
  · rw [hsome]
    by_cases h2 : (processPackets ok ps).2 = true
    · rw [if_pos h2]; exact processPackets_applied_pre ok ps
    · rw [if_neg h2]; exact processPackets_applied_pre ok ps
  · rw [hsome]
    by_cases h2 : (processPackets ok ps).2 = true
    · rw [if_pos h2]; exact processPackets_applied_all ok ps
    · rw [if_neg h2]; exact processPackets_applied_all ok ps
  · intro h
    rw [hsome, processPackets_all_ok ok ps h]
    rfl
  · intro h
    have h2 := processPackets_not_all_ok ok ps h
    rw [hsome, if_neg (by simp [h2])]
    exact ⟨rfl, rfl⟩

/-- Witness for the C6 amended theorem: a batch of one cleanly dispatching
packet returns `VALID` with that packet applied. -/
theorem result_post_prefix_applied_witness :
    handle_agent_response true (some [3]) (fun _ => true) =
      { reply := some (("VALID").data), applied := [3], warned := false } :=
  (result_post_prefix_applied [3] (fun _ => true)).2.2.2.2.1 (by decide)

/-- C7: on a `STAGE1` message from a `python` agent, a decrypted plaintext
of textual length outside `[1000, 2500]` or that is not a decimal integer
yields an error string and no agent row; otherwise an agent row is created
whose session key is the Diffie-Hellman shared secret derived from the
client's public value, and the reply is
`aes_encrypt_then_hmac(staging_key, nonce ++ str(server_public_value))`. -/
theorem stage1_python_handshake (p priv : Nat)
    (sessionID nonce stagingKey msg : Str) :
    ((msg.length < 1000 ∨ 2500 < msg.length) →
        handle_agent_staging_stage1_python p priv sessionID nonce stagingKey msg =
          .err ((("Error: Invalid Python key post format from ").data) ++ sessionID))
  ∧ (pyIntL msg = none →
        handle_agent_staging_stage1_python p priv sessionID nonce stagingKey msg =
          .err ((("Error: Invalid Python key post format from ").data) ++ sessionID))
  ∧ (∀ c : Int, 1000 ≤ msg.length → msg.length ≤ 2500 → pyIntL msg = some c →
      handle_agent_staging_stage1_python p priv sessionID nonce stagingKey msg =
        .agentAdded (dhSharedKey p priv c) nonce
          (aes_encrypt_then_hmac stagingKey
            (nonce ++ intToStr (dhPublicKey p priv)))) := by
  refine ⟨?_, ?_, ?_⟩
  · intro h
    simp only [handle_agent_staging_stage1_python, if_pos h]
  · intro h
    simp only [handle_agent_staging_stage1_python, h]
    split <;> rfl
  · intro c h1 h2 hc
    have hlen : ¬ (msg.length < 1000 ∨ 2500 < msg.length) := by omega
    simp only [handle_agent_staging_stage1_python, if_neg hlen, hc]

/-- A `dropWhile` whose predicate fails on every element is the identity. -/
theorem dropWhile_eq_self_of (p : Char → Bool) (s : Str)
    (h : ∀ c ∈ s, p c = false) : s.dropWhile p = s := by
  cases s with
  | nil => rfl
  | cons a l =>
    rw [List.dropWhile_cons, h a (List.mem_cons_self a l)]
    simp

/-- Stripping is the identity on whitespace-free strings. -/
theorem stripSpaces_eq_self (s : Str)
    (h : ∀ c ∈ s, c.isWhitespace = false) : stripSpaces s = s := by
  unfold stripSpaces
  rw [dropWhile_eq_self_of _ _ h,
    dropWhile_eq_self_of _ _ (fun c hc => h c (List.mem_reverse.mp hc)),
    List.reverse_reverse]

/-- Digit-run value of a block of zeros: each `0` multiplies the
accumulator by ten. -/
theorem decDigitsAux_replicate_zero :
    ∀ (k : Nat) (acc : Nat),
      decDigitsAux acc (List.replicate k '0') = some (acc * 10 ^ k) := by
  intro k
  induction k with
  | zero => intro acc; simp [decDigitsAux]
  | succ k ih =>
    intro acc
    rw [List.replicate_succ]
    show decDigitsAux acc ('0' :: List.replicate k '0') = _
    rw [decDigitsAux, if_pos (show '0'.isDigit = true from by decide),
      show '0'.toNat - 48 = 0 from by decide, ih]
    congr 1
    rw [pow_succ]
    ring

/-- The 1000-character decimal string `1` followed by 999 zeros parses to
`10 ^ 999`. -/
theorem pyIntL_one_many_zero :
    pyIntL ('1' :: List.replicate 999 '0') = some (Int.ofNat (10 ^ 999)) := by
  have hws : ∀ c ∈ '1' :: List.replicate 999 '0', c.isWhitespace = false := by
    intro c hc
    rcases List.mem_cons.mp hc with h | h
    · subst h; decide
    · rw [List.eq_of_mem_replicate h]; decide
  have hstrip := stripSpaces_eq_self _ hws
  have hmain : pyIntL ('1' :: List.replicate 999 '0') =
      (decDigitsAux 0 ('1' :: List.replicate 999 '0')).map
        (fun n => Int.ofNat n) := by
    rw [pyIntL, hstrip]
    rfl
  rw [hmain, decDigitsAux, if_pos (show '1'.isDigit = true from by decide),
    show 10 * 0 + ('1'.toNat - 48) = 1 from by decide,
    decDigitsAux_replicate_zero 999 1]
  rw [Option.map_some', one_mul]

/-- Witness for the C7 theorem: a 1000-digit public value (`1` followed by
999 zeros, the integer `10 ^ 999`) is accepted; with the toy group
`p = 11` and server exponent `priv = 3`, the agent row carries the derived
shared key and the reply is the staging-key sealing of nonce plus the
server public value. -/
theorem stage1_python_handshake_witness :
    handle_agent_staging_stage1_python 11 3 (("S").data) (("1234").data)
        (("K").data) ('1' :: List.replicate 999 '0') =
      .agentAdded (dhSharedKey 11 3 (Int.ofNat (10 ^ 999))) (("1234").data)
        (aes_encrypt_then_hmac (("K").data)
          ((("1234").data) ++ intToStr (dhPublicKey 11 3))) :=
  (stage1_python_handshake 11 3 (("S").data) (("1234").data) (("K").data)
      ('1' :: List.replicate 999 '0')).2.2 (Int.ofNat (10 ^ 999))
    (by simp only [List.length_cons, List.length_replicate]; decide)
    (by simp only [List.length_cons, List.length_replicate]; decide)
    pyIntL_one_many_zero

/-- C8: an inbound transport body shorter than 20 bytes is rejected by
`handle_agent_data` before any parsing or frame processing: the function
returns Python's `None` (which the listener can relay as an error), logs
the length, and leaves the agent-store state unchanged — for every parser,
frame handler and starting state. -/
theorem short_body_rejected {φ σ : Type} (body : List Nat) (st : σ)
    (parseRouting : List Nat → Option (List φ))
    (handleFrame : φ → σ → (Str × Str) × σ)
    (h : body.length < 20) :
    handle_agent_data body st parseRouting handleFrame =
      { replies := none
        state := st
        events := [(("[!] handle_agent_data(): routingPacket wrong length: ").data) ++
          (toString body.length).data] } := by
  simp only [handle_agent_data, if_pos h]

/-- Witness for the C8 theorem: a three-byte body is rejected with the
state (here a bare counter) untouched. -/
theorem short_body_rejected_witness :
    handle_agent_data (φ := Nat) [1, 2, 3] (7 : Nat) (fun _ => none)
        (fun _ s => (([], []), s)) =
      { replies := none
        state := 7
        events := [(("[!] handle_agent_data(): routingPacket wrong length: ").data) ++
          (toString ([1, 2, 3] : List Nat).length).data] } :=
  short_body_rejected [1, 2, 3] 7 (fun _ => none) (fun _ s => (([], []), s))
    (by decide)

/-- The `LIKE` pattern `%` matches every string. -/
theorem likeMatch_percent : ∀ s : Str, likeMatch ('%' :: []) s = true := by
  intro s
  induction s with
  | nil => rfl
  | cons c s ih =>
    have ih' : (suffixes s).any (fun t => likeMatch [] t) = true := ih
    show (suffixes (c :: s)).any (fun t => likeMatch [] t) = true
    rw [suffixes]
    simp [List.any_cons, ih']

/-- `sameMembers` decides mutual membership. -/
theorem sameMembers_iff (a b : List Str) :
    sameMembers a b = true ↔ ∀ x : Str, x ∈ a ↔ x ∈ b := by
  simp only [sameMembers, Bool.and_eq_true, List.all_eq_true]
  constructor
  · rintro ⟨h1, h2⟩ x
    exact ⟨fun hx => List.mem_of_elem_eq_true (h1 x hx),
      fun hx => List.mem_of_elem_eq_true (h2 x hx)⟩
  · intro h
    exact ⟨fun x hx => List.elem_eq_true_of_mem ((h x).mp hx),
      fun x hx => List.elem_eq_true_of_mem ((h x).mpr hx)⟩

/-- C10 (counterexample): with two agents whose session ids differ only in
case (`abc` and `ABC`), removing `abc` pops only the exact key from the
in-memory cache but the `DELETE ... WHERE session_id LIKE ?` statement
matches case-insensitively and deletes *both* rows, so the in-memory agent
set and the persisted set diverge within a single call. -/
theorem remove_agent_db_like_ctrex :
    sameMembers [("abc").data, ("ABC").data]
        (([((("abc").data), (("abc").data)), ((("ABC").data), (("ABC").data))].map
          (fun r => r.1))) = true
  ∧ sameMembers
      (remove_agent_db (("abc").data)
        { cache := [("abc").data, ("ABC").data]
          rows := [((("abc").data), (("abc").data)),
            ((("ABC").data), (("ABC").data))] }).cache
      ((remove_agent_db (("abc").data)
        { cache := [("abc").data, ("ABC").data]
          rows := [((("abc").data), (("abc").data)),
            ((("ABC").data), (("ABC").data))] }).rows.map (fun r => r.1)) =
      false :=
  ⟨by decide, by decide⟩

/-- C10 (amended): `remove_agent_db` removes the agent from the cache and
deletes its rows in one call; `'%'` and the case-insensitive alias `'all'`
clear every agent from both cache and database, and `'all'` behaves
identically to `'%'`.  The per-agent deletion uses SQL `LIKE` (ASCII
case-insensitive, with `%`/`_` wildcards), so the in-memory and persisted
sets stay equal exactly under the hypothesis that the argument LIKE-matches
only its own row among the stored session ids (names taken at their
default, the session id). -/
theorem remove_agent_db_sound (s : AgentStoreState) (sid : Str)
    (hnames : ∀ r ∈ s.rows, r.2 = r.1)
    (hexact : ∀ r ∈ s.rows, (likeMatch sid r.1 = true ↔ r.1 = sid))
    (hinv : sameMembers s.cache (s.rows.map (fun r => r.1)) = true) :
    sameMembers (remove_agent_db sid s).cache
        ((remove_agent_db sid s).rows.map (fun r => r.1)) = true
  ∧ (remove_agent_db ('%' :: []) s).cache = []
  ∧ (remove_agent_db ('%' :: []) s).rows = []
  ∧ remove_agent_db (("all").data) s = remove_agent_db ('%' :: []) s := by
  have hrows_nil : ∀ t : AgentStoreState,
      t.rows.filter (fun r => ¬ likeMatch ('%' :: []) r.1) = [] := by
    intro t
    apply List.filter_eq_nil_iff.mpr
    intro r _
    simp [likeMatch_percent]
  refine ⟨?_, ?_, ?_, ?_⟩
  · by_cases hbulk : sid = ('%' :: []) ∨ toLowerStr sid = ("all").data
    · rw [remove_agent_db, if_pos hbulk, hrows_nil]
      rfl
    · rw [remove_agent_db, if_neg hbulk]
      have hsid : (get_agent_id_db sid s.rows).getD sid = sid := by
        unfold get_agent_id_db
        cases hfind : s.rows.find? (fun r => r.2 = sid) with
        | none => rfl
        | some r =>
          have hpred := List.find?_some hfind
          have hmem := List.mem_of_find?_eq_some hfind
          rw [decide_eq_true_eq] at hpred
          simp only [Option.map_some', Option.getD_some]
          rw [← hnames r hmem, hpred]
      rw [hsid]
      rw [sameMembers_iff] at hinv ⊢
      intro x
      rw [List.mem_filter, List.mem_map]
      constructor
      · rintro ⟨hx, hxne⟩
        rw [decide_eq_true_eq] at hxne
        obtain ⟨r, hr, hrx⟩ := List.mem_map.mp ((hinv x).mp hx)
        refine ⟨r, List.mem_filter.mpr ⟨hr, ?_⟩, hrx⟩
        rw [decide_eq_true_eq]
        intro hlike
        exact hxne (hrx ▸ (hexact r hr).mp hlike)
      · rintro ⟨r, hr, hrx⟩
        obtain ⟨hrmem, hrlike⟩ := List.mem_filter.mp hr
        rw [decide_eq_true_eq] at hrlike
        refine ⟨(hinv x).mpr (List.mem_map.mpr ⟨r, hrmem, hrx⟩), ?_⟩
        rw [decide_eq_true_eq]
        intro hxeq
        exact hrlike ((hexact r hrmem).mpr (by rw [hrx, hxeq]))
  · rw [remove_agent_db, if_pos (Or.inl rfl)]
  · rw [remove_agent_db, if_pos (Or.inl rfl)]
    exact hrows_nil s
  · rw [remove_agent_db, remove_agent_db, if_pos (Or.inl rfl),
      if_pos (Or.inr (show toLowerStr (("all").data) = ("all").data from by decide))]

/-- Witness for the C10 amended theorem: a store holding the single agent
`A` satisfies the hypotheses, and removing `A` keeps cache and database in
sync (both empty), with the `%`/`all` bulk clear behaving as stated. -/
theorem remove_agent_db_sound_witness :
    sameMembers (remove_agent_db (("A").data)
        { cache := [("A").data], rows := [((("A").data), (("A").data))] }).cache
      ((remove_agent_db (("A").data)
        { cache := [("A").data], rows := [((("A").data), (("A").data))] }).rows.map
          (fun r => r.1)) = true
  ∧ (remove_agent_db ('%' :: [])
      { cache := [("A").data], rows := [((("A").data), (("A").data))] }).cache = []
  ∧ (remove_agent_db ('%' :: [])
      { cache := [("A").data], rows := [((("A").data), (("A").data))] }).rows = []
  ∧ remove_agent_db (("all").data)
        { cache := [("A").data], rows := [((("A").data), (("A").data))] } =
      remove_agent_db ('%' :: [])
        { cache := [("A").data], rows := [((("A").data), (("A").data))] } :=
  remove_agent_db_sound
    { cache := [("A").data], rows := [((("A").data), (("A").data))] }
    (("A").data) (by decide) (by decide) (by decide)

end Empire
